import Mathlib

/-!
Verification of the pending-reminder reconciliation core of the notification
bridge (source: src/index.js).  The spreadsheet store and the messaging
channel are external collaborators; they are represented by the row data the
store returns and by a gateway record of success oracles.  Pure helpers
(date parsing, header resolution, the due filter, the message template) are
translated directly from the source; the reconciliation pass is embedded as
an explicit event trace (send attempts and cell writes) together with an
outcome, mirroring the exception flow of the handler.  JavaScript string
primitives (trim, split, toLowerCase, parseInt) are re-implemented over
character lists so that every definition evaluates inside the kernel.
-/

set_option autoImplicit false

namespace RootCumple

/-! ## JavaScript string primitives over character lists -/

/-- JavaScript `String.prototype.trim`: drop whitespace from both ends. -/
def trimChars (cs : List Char) : List Char :=
  ((cs.dropWhile Char.isWhitespace).reverse.dropWhile Char.isWhitespace).reverse

/-- JavaScript trim on a string, via its character list. -/
def jsTrim (s : String) : String :=
  ⟨trimChars s.data⟩

/-- JavaScript `text.split("/")`: split a character list at every slash;
the empty list yields one empty field, like the empty string in JS. -/
def splitSlash : List Char → List (List Char)
  | [] => [[]]
  | c :: rest =>
    if c = '/' then [] :: splitSlash rest
    else
      match splitSlash rest with
      | [] => [[c]]
      | f :: fs => (c :: f) :: fs

/-- Simple Unicode lowercasing on the Latin-1 range, as JavaScript
`toLowerCase` acts on the alphabet this sheet uses: ASCII A-Z and the
accented capitals À-Þ (excluding the multiplication sign) move down by
0x20. -/
def jsLowerChar (c : Char) : Char :=
  if ('A' ≤ c ∧ c ≤ 'Z') ∨ ('À' ≤ c ∧ c ≤ 'Þ' ∧ c ≠ '×') then Char.ofNat (c.toNat + 0x20)
  else c

/-- JavaScript `toLowerCase` on a string. -/
def jsLower (s : String) : String :=
  ⟨s.data.map jsLowerChar⟩

/-- Value of a run of decimal digit characters. -/
def digitsToNat (ds : List Char) : Nat :=
  ds.foldl (fun a c => 10 * a + (c.toNat - 48)) 0

/-- JavaScript `parseInt(s, 10)`: skip leading whitespace, read an optional
sign and then the leading run of decimal digits; `none` models `NaN`. -/
def jsParseInt (cs : List Char) : Option Int :=
  let ws := cs.dropWhile Char.isWhitespace
  let signedTail : Int × List Char :=
    match ws with
    | [] => (1, [])
    | c :: r => if c = '-' then (-1, r) else if c = '+' then (1, r) else (1, ws)
  let ds := signedTail.2.takeWhile Char.isDigit
  if ds.isEmpty then none
  else some (signedTail.1 * Int.ofNat (digitsToNat ds))

/-- A nonempty all-digit field read as a number; `none` when the field has
any non-digit, which makes a strict format parse fail. -/
def decDigits? (cs : List Char) : Option Nat :=
  if cs ≠ [] ∧ cs.all Char.isDigit then some (digitsToNat cs) else none

/-! ## Calendar dates -/

/-- A calendar date with no time component, as produced by the date parser
and compared at day granularity. -/
structure CalendarDate where
  y : Int
  m : Nat
  d : Nat
deriving DecidableEq, Repr

/-- Gregorian leap-year rule, as used by the calendar validity check. -/
def isLeapYear (y : Int) : Bool :=
  decide (y % 4 = 0 ∧ (y % 100 ≠ 0 ∨ y % 400 = 0))

/-- Number of days of month `m` (1-12) in year `y`. -/
def daysInMonth (y : Int) (m : Nat) : Nat :=
  if m = 2 then (if isLeapYear y then 29 else 28)
  else if m = 4 ∨ m = 6 ∨ m = 9 ∨ m = 11 then 30
  else 31

/-- A structurally valid calendar date: month in range and day within the
length of the month. -/
def validDate (dt : CalendarDate) : Bool :=
  decide (1 ≤ dt.m ∧ dt.m ≤ 12 ∧ 1 ≤ dt.d ∧ dt.d ≤ daysInMonth dt.y dt.m)

/-- Modelled from the spec: the source builds the string `year-m-d` and hands
it to the external dayjs library (not part of this repository) as
`dayjs(text, "YYYY-M-D", true)`, a strict parse against that format.  Per the
spec, parsing "must be strict about calendar validity"; strict format
matching requires a 4-digit year numeral and 1- or 2-digit numeric month and
day fields, and a real calendar date. -/
def dayjsStrictYMD (year : Int) (m d : List Char) : Option CalendarDate :=
  match decDigits? m, decDigits? d with
  | some mv, some dv =>
    if 1000 ≤ year ∧ year ≤ 9999 ∧ m.length ≤ 2 ∧ d.length ≤ 2 ∧
       1 ≤ mv ∧ mv ≤ 12 ∧ 1 ≤ dv ∧ dv ≤ daysInMonth year mv
    then some ⟨year, mv, dv⟩ else none
  | _, _ => none

/-- The body of `parseDDMMYY` after the slash split: destructure the first
three fields as day, month, year, widen a 2-digit year by 2000, and parse
strictly (src/index.js lines 86-89). -/
def parseFromParts (d m yf : List Char) : Option CalendarDate :=
  match jsParseInt yf with
  | none => none
  | some yv =>
    dayjsStrictYMD (if yf.length = 2 then 2000 + yv else yv) m d

/-- The function parseDDMMYY (src/index.js lines 81-90): reject the empty cell, trim,
split on the slash, require at least three fields and parse the first three;
extra fields beyond the third are ignored by the destructuring. -/
def parseDDMMYY (s : String) : Option CalendarDate :=
  if s = "" then none
  else if (splitSlash (trimChars s.data)).length < 3 then none
  else
    parseFromParts ((splitSlash (trimChars s.data)).getD 0 [])
      ((splitSlash (trimChars s.data)).getD 1 [])
      ((splitSlash (trimChars s.data)).getD 2 [])

/-- Day increment with month and year rollover, as `today.add(1, "day")`
computes on the calendar. -/
def addOneDay (dt : CalendarDate) : CalendarDate :=
  if dt.d < daysInMonth dt.y dt.m then ⟨dt.y, dt.m, dt.d + 1⟩
  else if dt.m < 12 then ⟨dt.y, dt.m + 1, 1⟩
  else ⟨dt.y + 1, 1, 1⟩

/-- Chronological strict order on calendar dates (what `isBefore` with day
granularity compares); lexicographic on year, month, day. -/
def dateLt (a b : CalendarDate) : Bool :=
  decide (a.y < b.y ∨ (a.y = b.y ∧ (a.m < b.m ∨ (a.m = b.m ∧ a.d < b.d))))

/-- Spec-side comparator for the refinement claim about mode
until_today: written from the spec words "on or before the reference
date", to be compared with the strictly-before-tomorrow test of the source. -/
def specOnOrBefore (a b : CalendarDate) : Bool :=
  decide (a.y < b.y ∨ (a.y = b.y ∧ (a.m < b.m ∨ (a.m = b.m ∧ a.d ≤ b.d))))

/-- The due condition on a parsed record date (src/index.js lines 310-312 and
264-266): under mode "today", same calendar day as the reference; under any
other mode value, strictly before the reference date plus one day.  `mode` is
the already-lowercased `SEND_MODE` value. -/
def isDueCond (mode : String) (today fecha : CalendarDate) : Bool :=
  if mode = "today" then decide (fecha = today)
  else dateLt fecha (addOneDay today)

/-! ## Row projection and header resolution -/

/-- Cell access with the default of the source, where a missing or empty
cell reads as the empty string. -/
def getCell (row : List String) (i : Nat) : String :=
  (row.get? i).getD ""

/-- Two-digit zero padding, as the `DD` and `MM` format tokens render. -/
def pad2 (n : Nat) : String :=
  if n < 10 then "0" ++ toString n else toString n

/-- Rendering of a parsed calendar date with the DD/MM/YYYY format. -/
def formatDDMMYYYY (dt : CalendarDate) : String :=
  pad2 dt.d ++ "/" ++ pad2 dt.m ++ "/" ++ toString dt.y

/-- The outbound message template (src/index.js line 315). -/
def renderMsg (nombre cargo : String) (fecha : CalendarDate) : String :=
  "🎉 *Recordatorio*\n- Nombre: " ++ nombre ++ "\n- Cargo: " ++ cargo ++
    "\n- Fecha: " ++ formatDDMMYYYY fecha

/-- Header cell normalization: `h.trim().toLowerCase()`. -/
def normHeader (h : String) : String :=
  jsLower (jsTrim h)

/-- Lookup in the header map, which is built left to right from entries,
so a duplicated normalized header keeps the last column index. -/
def hmapLookup (headers : List String) (key : String) : Option Nat :=
  ((headers.enum.filter fun p => normHeader p.2 = key).getLast?).map Prod.fst

/-- Resolution of the four required logical columns (src/index.js lines
289-296): nombre, cargo, fecha (with the two bracket-style aliases tried in
order) and enviado; `none` when any of them is undefined. -/
def resolveHeaders (headers : List String) : Option (Nat × Nat × Nat × Nat) :=
  match hmapLookup headers "nombre", hmapLookup headers "cargo",
        (hmapLookup headers "fecha" <|> hmapLookup headers "fecha (dd/mm/yy)" <|>
          hmapLookup headers "fecha(dd/mm/yy)"),
        hmapLookup headers "enviado" with
  | some iN, some iC, some iF, some iE => some (iN, iC, iF, iE)
  | _, _, _, _ => none

/-- The record-level due test shared by preview and send (src/index.js lines
305-313): a record is due when its date cell parses, its normalized sent
flag is not the literal token and its date satisfies the mode condition. -/
def rowDue (mode : String) (today : CalendarDate) (iF iE : Nat) (row : List String) : Bool :=
  match parseDDMMYY (getCell row iF) with
  | none => false
  | some fecha =>
    if jsLower (jsTrim (getCell row iE)) = "sí" then false
    else isDueCond mode today fecha

/-- The message a given data row would produce, for stating trace
properties; agrees with the message built inside the pass whenever the date
cell parses. -/
def rowMsg (iN iC iF : Nat) (row : List String) : String :=
  match parseDDMMYY (getCell row iF) with
  | some fecha => renderMsg (jsTrim (getCell row iN)) (jsTrim (getCell row iC)) fecha
  | none => ""

/-! ## The reconciliation pass as an event trace -/

/-- View of an `Except` value as a sum, to transfer decidable equality. -/
def exceptToSum {ε α : Type} : Except ε α → Sum ε α
  | .error e => .inl e
  | .ok a => .inr a

instance instDecEqExcept {ε α : Type} [DecidableEq ε] [DecidableEq α] :
    DecidableEq (Except ε α) := fun a b =>
  decidable_of_iff (exceptToSum a = exceptToSum b)
    (by cases a <;> cases b <;> simp [exceptToSum])

/-- Gateway calls the pass performs, in order: message send attempts to the
channel and single-cell writes to the store. -/
inductive Event where
  | send : String → String → Event
  | write : Nat → Nat → String → Event
deriving DecidableEq, Repr

/-- Abort causes surfaced to the caller, mirroring the thrown errors and
early returns of the handlers. -/
inductive Err where
  | noDestinations : Err
  | missingHeaders : Err
  | notReady : Err
  | sendFail : String → String → Err
  | writeFail : Nat → Nat → Err
deriving DecidableEq, Repr

/-- The external collaborators as success oracles: channel readiness
(`connReady` with a live socket), per-send success and per-write success. -/
structure Gateway where
  ready : Bool
  sendOk : String → String → Bool
  writeOk : Nat → Nat → Bool

/-- The destination loop for one record (src/index.js lines 316-319):
`sendText` first checks readiness and throws, otherwise the send is
attempted and a rejection aborts the pass.  Returns the attempts made and
the first failure, if any. -/
def processDests (gw : Gateway) (msg : String) : List String → List Event × Option Err
  | [] => ([], none)
  | num :: rest =>
    if gw.ready = false then ([], some .notReady)
    else if gw.sendOk num msg then
      let tail := processDests gw msg rest
      (Event.send num msg :: tail.1, tail.2)
    else ([Event.send num msg], some (.sendFail num msg))

/-- The record loop of `/send_pending` (src/index.js lines 300-323): skip
rows whose date cell does not parse, whose sent flag is already the token,
or whose date is not due; otherwise send to every destination, then write
the sent marker and collect the row in the summary.  Any failure propagates
to the surrounding catch, ending the pass with the events made so far. -/
def processRows (gw : Gateway) (dests : List String) (mode : String) (today : CalendarDate)
    (iN iC iF iE : Nat) : List (List String) → Nat → List Event × Except Err (List (Nat × String))
  | [], _ => ([], .ok [])
  | row :: rest, idx =>
    match parseDDMMYY (getCell row iF) with
    | none => processRows gw dests mode today iN iC iF iE rest (idx + 1)
    | some fecha =>
      if jsLower (jsTrim (getCell row iE)) = "sí" then
        processRows gw dests mode today iN iC iF iE rest (idx + 1)
      else if isDueCond mode today fecha then
        let msg := renderMsg (jsTrim (getCell row iN)) (jsTrim (getCell row iC)) fecha
        let sends := processDests gw msg dests
        match sends.2 with
        | some e => (sends.1, .error e)
        | none =>
          if gw.writeOk (idx + 2) (iE + 1) then
            let tail := processRows gw dests mode today iN iC iF iE rest (idx + 1)
            (sends.1 ++ Event.write (idx + 2) (iE + 1) "sí" :: tail.1,
             match tail.2 with
             | .ok l => .ok ((idx + 2, jsTrim (getCell row iN)) :: l)
             | .error e => .error e)
          else
            (sends.1 ++ [Event.write (idx + 2) (iE + 1) "sí"],
             .error (.writeFail (idx + 2) (iE + 1)))
      else processRows gw dests mode today iN iC iF iE rest (idx + 1)

/-- The `/send_pending` handler over the store contents (src/index.js lines
284-329): reject a missing destination list, resolve headers, then run the
record loop; the result is the trace of gateway calls together with either
the summary list of marked rows or the abort cause. -/
def sendPending (gw : Gateway) (dests : List String) (mode : String) (today : CalendarDate)
    (headers : List String) (rows : List (List String)) :
    List Event × Except Err (List (Nat × String)) :=
  if dests = [] then ([], .error .noDestinations)
  else
    match resolveHeaders headers with
    | none => ([], .error .missingHeaders)
    | some (iN, iC, iF, iE) => processRows gw dests mode today iN iC iF iE rows 0

/-- One entry of the preview payload. -/
structure PendingEntry where
  row : Nat
  nombre : String
  cargo : String
  fechaStr : String
deriving DecidableEq, Repr

/-- The due-set projection of `/preview` (src/index.js lines 253-276): the
same skip conditions as the send loop, collecting display entries instead
of performing sends. -/
def computePending (mode : String) (today : CalendarDate) (iN iC iF iE : Nat) :
    List (List String) → Nat → List PendingEntry
  | [], _ => []
  | row :: rest, idx =>
    match parseDDMMYY (getCell row iF) with
    | none => computePending mode today iN iC iF iE rest (idx + 1)
    | some fecha =>
      if jsLower (jsTrim (getCell row iE)) = "sí" then
        computePending mode today iN iC iF iE rest (idx + 1)
      else if isDueCond mode today fecha then
        ⟨idx + 2, jsTrim (getCell row iN), jsTrim (getCell row iC), formatDDMMYYYY fecha⟩ ::
          computePending mode today iN iC iF iE rest (idx + 1)
      else computePending mode today iN iC iF iE rest (idx + 1)

/-- The `/preview` handler over the store contents (src/index.js lines
238-282): an empty sheet short-circuits to an empty due set before the
header check; otherwise headers resolve or the pass reports the missing
header error. -/
def preview (mode : String) (today : CalendarDate) (headers : List String)
    (rows : List (List String)) : Except Err (List PendingEntry) :=
  if headers = [] then .ok []
  else
    match resolveHeaders headers with
    | none => .error .missingHeaders
    | some (iN, iC, iF, iE) => .ok (computePending mode today iN iC iF iE rows 0)

/-! ## Concrete scenario data -/

/-- The canonical header row of the sheet. -/
def hdrsA : List String := ["Nombre", "Cargo", "Fecha", "Enviado"]

/-- A data row due on 2025-06-01 and not yet sent. -/
def rowAna : List String := ["Ana", "Jefa", "01/06/25", "no"]

/-- Reference date 2025-06-01. -/
def day0601 : CalendarDate := ⟨2025, 6, 1⟩

/-- The message the row for Ana renders. -/
def msgAna : String := renderMsg "Ana" "Jefa" day0601

/-- A gateway whose channel is ready and where every send and write
succeeds. -/
def gwOk : Gateway := ⟨true, fun _ _ => true, fun _ _ => true⟩

/-- A ready gateway where every send fails. -/
def gwSendFails : Gateway := ⟨true, fun _ _ => false, fun _ _ => true⟩

/-- A gateway with no authenticated session. -/
def gwNotReady : Gateway := ⟨false, fun _ _ => true, fun _ _ => true⟩

/-- A ready gateway where exactly the destination 111 fails. -/
def gwFailFirst : Gateway := ⟨true, fun n _ => decide (n ≠ "111"), fun _ _ => true⟩

/-! ## Theorems -/

theorem daysInMonth_le_31 (y : Int) (m : Nat) : daysInMonth y m ≤ 31 := by
  unfold daysInMonth
  split_ifs <;> omega

theorem dateLt_addOneDay (a t : CalendarDate) (ha : validDate a = true)
    (ht : validDate t = true) : dateLt a (addOneDay t) = specOnOrBefore a t := by
  simp only [validDate, decide_eq_true_eq] at ha ht
  obtain ⟨ham1, ham2, had1, had2⟩ := ha
  obtain ⟨htm1, htm2, htd1, htd2⟩ := ht
  have h31a : daysInMonth a.y a.m ≤ 31 := daysInMonth_le_31 a.y a.m
  have h31t : daysInMonth t.y t.m ≤ 31 := daysInMonth_le_31 t.y t.m
  simp only [addOneDay]
  split_ifs with h1 h2
  · simp only [dateLt, specOnOrBefore, decide_eq_decide]
    omega
  · simp only [dateLt, specOnOrBefore, decide_eq_decide]
    by_cases hy : a.y = t.y
    · by_cases hm : a.m = t.m
      · rw [hy, hm] at had2
        omega
      · omega
    · omega
  · simp only [dateLt, specOnOrBefore, decide_eq_decide]
    by_cases hy : a.y = t.y
    · by_cases hm : a.m = t.m
      · rw [hy, hm] at had2
        omega
      · omega
    · omega

/-- C3 counterexample: the claim says a mode value that is neither
today nor until_today behaves exactly like mode today; at mode
weekly with record date 2025-05-01 and reference date 2025-06-10
the due test is true while the today test is false, so the claim fails. -/
theorem c3_unknown_mode_counterexample :
    isDueCond "weekly" ⟨2025, 6, 10⟩ ⟨2025, 5, 1⟩ = true ∧
    isDueCond "today" ⟨2025, 6, 10⟩ ⟨2025, 5, 1⟩ = false := by
  decide

/-- C3 (amended): a mode value other than the literal today — including
every unknown mode — behaves exactly like mode until_today: the record
is due iff its date is on or before the reference date. -/
theorem c3_unknown_mode_like_until_today (mode : String) (today fecha : CalendarDate)
    (h : mode ≠ "today") :
    isDueCond mode today fecha = isDueCond "until_today" today fecha := by
  rw [isDueCond, isDueCond, if_neg h, if_neg (by decide)]

/-- C3 witness: the amended statement at the concrete unknown mode
weekly. -/
theorem c3_unknown_mode_like_until_today_witness :
    ("weekly" : String) ≠ "today" ∧
    isDueCond "weekly" ⟨2025, 6, 10⟩ ⟨2025, 5, 1⟩ =
      isDueCond "until_today" ⟨2025, 6, 10⟩ ⟨2025, 5, 1⟩ :=
  ⟨by decide, c3_unknown_mode_like_until_today "weekly" ⟨2025, 6, 10⟩ ⟨2025, 5, 1⟩ (by decide)⟩

/-- C4: on valid calendar dates, the due test under mode today holds iff
the record date equals the reference date exactly (year, month, day), and
under mode until_today — computed by the source as strictly before the
reference date plus one day — holds iff the record date is on or before
the reference date. -/
theorem c4_isDue_modes (today fecha : CalendarDate)
    (hf : validDate fecha = true) (ht : validDate today = true) :
    (isDueCond "today" today fecha = true ↔ fecha = today) ∧
    (isDueCond "until_today" today fecha = true ↔ specOnOrBefore fecha today = true) := by
  have h2 : ¬ (("until_today" : String) = "today") := by decide
  constructor
  · rw [isDueCond, if_pos (rfl : ("today" : String) = "today")]
    exact ⟨of_decide_eq_true, fun h => decide_eq_true h⟩
  · rw [isDueCond]
    rw [if_neg h2]
    rw [dateLt_addOneDay fecha today hf ht]

/-- C4 witness: both mode characterizations at record date 2025-05-01 and
reference date 2025-06-10. -/
theorem c4_isDue_modes_witness :
    validDate ⟨2025, 5, 1⟩ = true ∧ validDate ⟨2025, 6, 10⟩ = true ∧
    ((isDueCond "today" ⟨2025, 6, 10⟩ ⟨2025, 5, 1⟩ = true ↔
        (⟨2025, 5, 1⟩ : CalendarDate) = ⟨2025, 6, 10⟩) ∧
      (isDueCond "until_today" ⟨2025, 6, 10⟩ ⟨2025, 5, 1⟩ = true ↔
        specOnOrBefore ⟨2025, 5, 1⟩ ⟨2025, 6, 10⟩ = true)) :=
  ⟨by decide, by decide, c4_isDue_modes ⟨2025, 6, 10⟩ ⟨2025, 5, 1⟩ (by decide) (by decide)⟩

theorem dayjsStrictYMD_year (year : Int) (m d : List Char) (dt : CalendarDate)
    (h : dayjsStrictYMD year m d = some dt) : dt.y = year := by
  unfold dayjsStrictYMD at h
  split at h
  · split at h
    · cases h
      rfl
    · cases h
  · cases h

/-- C5: whenever `parseDDMMYY` yields a date, the year is the numeric value
of the third slash field widened by 2000 when that field has exactly two
characters and taken literally otherwise; and the three contract examples —
an invalid calendar date, the empty string and the wrong separator — all
yield null.  The function is total, so no input raises. -/
theorem c5_parse_contract :
    (∀ s dt, parseDDMMYY s = some dt →
      ∃ yv, jsParseInt ((splitSlash (trimChars s.data)).getD 2 []) = some yv ∧
        dt.y = if ((splitSlash (trimChars s.data)).getD 2 []).length = 2 then 2000 + yv
          else yv) ∧
    parseDDMMYY "31/02/2024" = none ∧ parseDDMMYY "" = none ∧
    parseDDMMYY "10-5-24" = none := by
  refine ⟨?_, by decide, by decide, by decide⟩
  intro s dt h
  rw [parseDDMMYY] at h
  split at h
  · cases h
  split at h
  · cases h
  rw [parseFromParts] at h
  split at h
  · cases h
  next yv hj =>
    exact ⟨yv, hj, dayjsStrictYMD_year _ _ _ dt h⟩

/-- C5 witness: the year contract applied at the concrete 2-digit-year
input 01/06/25, which parses to 2025-06-01. -/
theorem c5_parse_contract_witness :
    parseDDMMYY "01/06/25" = some ⟨2025, 6, 1⟩ ∧
    ∃ yv, jsParseInt ((splitSlash (trimChars "01/06/25".data)).getD 2 []) = some yv ∧
      (⟨2025, 6, 1⟩ : CalendarDate).y =
        if ((splitSlash (trimChars "01/06/25".data)).getD 2 []).length = 2 then 2000 + yv
        else yv :=
  ⟨by decide, c5_parse_contract.1 "01/06/25" ⟨2025, 6, 1⟩ (by decide)⟩

/-- C10: an input whose trimmed text splits into more than three slash
fields is not rejected by the length guard; the result is computed from the
first three fields only, the extra trailing fields being dropped by the
destructuring. -/
theorem c10_extra_fields (s : String)
    (h : 3 < (splitSlash (trimChars s.data)).length) :
    parseDDMMYY s =
      parseFromParts ((splitSlash (trimChars s.data)).getD 0 [])
        ((splitSlash (trimChars s.data)).getD 1 [])
        ((splitSlash (trimChars s.data)).getD 2 []) := by
  have hs : s ≠ "" := by
    intro he
    rw [he] at h
    exact absurd h (by decide)
  rw [parseDDMMYY, if_neg hs, if_neg (by omega)]

/-- C10 witness: the four-field input 1/6/25/extra parses from its first
three fields to 2025-06-01 instead of being rejected. -/
theorem c10_extra_fields_witness :
    3 < (splitSlash (trimChars "1/6/25/extra".data)).length ∧
    parseDDMMYY "1/6/25/extra" =
      parseFromParts ((splitSlash (trimChars "1/6/25/extra".data)).getD 0 [])
        ((splitSlash (trimChars "1/6/25/extra".data)).getD 1 [])
        ((splitSlash (trimChars "1/6/25/extra".data)).getD 2 []) ∧
    parseDDMMYY "1/6/25/extra" = some ⟨2025, 6, 1⟩ :=
  ⟨by decide, c10_extra_fields "1/6/25/extra" (by decide), by decide⟩

/-- C7: when any of the four required logical columns fails to resolve from
a present (nonempty) normalized header row, both preview and the
reconciliation pass report the missing-header error, and the pass performs
no gateway call at all: its event trace is empty. -/
theorem c7_missing_headers_abort (gw : Gateway) (dests : List String) (mode : String)
    (today : CalendarDate) (headers : List String) (rows : List (List String))
    (hne : headers ≠ []) (hres : resolveHeaders headers = none) (hd : dests ≠ []) :
    preview mode today headers rows = .error .missingHeaders ∧
    sendPending gw dests mode today headers rows = ([], .error .missingHeaders) := by
  constructor
  · rw [preview, if_neg hne, hres]
  · rw [sendPending, if_neg hd, hres]

/-- C7 witness: scenario D, the header row missing the Cargo column, with
one destination configured. -/
theorem c7_missing_headers_abort_witness :
    (["Nombre", "Fecha", "Enviado"] : List String) ≠ [] ∧
    resolveHeaders ["Nombre", "Fecha", "Enviado"] = none ∧
    (["521"] : List String) ≠ [] ∧
    (preview "today" day0601 ["Nombre", "Fecha", "Enviado"] [rowAna] =
        .error .missingHeaders ∧
      sendPending gwOk ["521"] "today" day0601 ["Nombre", "Fecha", "Enviado"] [rowAna] =
        ([], .error .missingHeaders)) :=
  ⟨by decide, by decide, by decide,
    c7_missing_headers_abort gwOk ["521"] "today" day0601 ["Nombre", "Fecha", "Enviado"]
      [rowAna] (by decide) (by decide) (by decide)⟩

/-- C9: on an empty sheet — no rows at all, hence no header row — preview
short-circuits to a successful empty due set, while the reconciliation pass
has no such short-circuit: header resolution fails on the empty row and the
pass reports the missing-header error (given destinations are
configured). -/
theorem c9_empty_sheet (gw : Gateway) (dests : List String) (mode : String)
    (today : CalendarDate) (rows : List (List String)) (hd : dests ≠ []) :
    preview mode today [] rows = .ok [] ∧
    sendPending gw dests mode today [] rows = ([], .error .missingHeaders) := by
  have hres : resolveHeaders [] = none := rfl
  constructor
  · rw [preview, if_pos rfl]
  · rw [sendPending, if_neg hd, hres]

/-- C9 witness: the empty sheet with one destination configured. -/
theorem c9_empty_sheet_witness :
    (["521"] : List String) ≠ [] ∧
    (preview "today" day0601 [] [] = .ok [] ∧
      sendPending gwOk ["521"] "today" day0601 [] [] = ([], .error .missingHeaders)) :=
  ⟨by decide, c9_empty_sheet gwOk ["521"] "today" day0601 [] (by decide)⟩

/-- C6: a record whose date cell does not parse, or whose normalized sent
flag is the literal token, is skipped identically by the preview projection
and by the send loop — regardless of the other field — so it contributes
neither a due-set entry nor any gateway call. -/
theorem c6_ineligible_skipped (gw : Gateway) (dests : List String) (mode : String)
    (today : CalendarDate) (iN iC iF iE idx : Nat) (row : List String)
    (rest : List (List String))
    (h : parseDDMMYY (getCell row iF) = none ∨ jsLower (jsTrim (getCell row iE)) = "sí") :
    computePending mode today iN iC iF iE (row :: rest) idx =
      computePending mode today iN iC iF iE rest (idx + 1) ∧
    processRows gw dests mode today iN iC iF iE (row :: rest) idx =
      processRows gw dests mode today iN iC iF iE rest (idx + 1) := by
  rcases h with h | h
  · constructor
    · simp only [computePending, h]
    · simp only [processRows, h]
  · cases hp : parseDDMMYY (getCell row iF) with
    | none =>
      constructor
      · simp only [computePending, hp]
      · simp only [processRows, hp]
    | some fecha =>
      constructor
      · simp only [computePending, hp, h, if_pos]
      · simp only [processRows, hp, h, if_pos]

/-- C6 witness: a row already flagged with the sent token in upper case is
skipped by both computations, date notwithstanding. -/
theorem c6_ineligible_skipped_witness :
    (parseDDMMYY (getCell ["Ana", "Jefa", "01/06/25", "SÍ"] 2) = none ∨
      jsLower (jsTrim (getCell ["Ana", "Jefa", "01/06/25", "SÍ"] 3)) = "sí") ∧
    (computePending "today" day0601 0 1 2 3 [["Ana", "Jefa", "01/06/25", "SÍ"]] 0 =
        computePending "today" day0601 0 1 2 3 [] 1 ∧
      processRows gwOk ["521"] "today" day0601 0 1 2 3 [["Ana", "Jefa", "01/06/25", "SÍ"]] 0 =
        processRows gwOk ["521"] "today" day0601 0 1 2 3 [] 1) :=
  ⟨Or.inr (by decide),
    c6_ineligible_skipped gwOk ["521"] "today" day0601 0 1 2 3 0
      ["Ana", "Jefa", "01/06/25", "SÍ"] [] (Or.inr (by decide))⟩

theorem getLast?_cons_some {α : Type} (a x : α) (l : List α) (h : l.getLast? = some x) :
    (a :: l).getLast? = some x := by
  cases l with
  | nil => cases h
  | cons b t =>
    rw [List.getLast?_cons_cons]
    exact h

theorem getLast?_append_some {α : Type} (l1 l2 : List α) (x : α) (h : l2.getLast? = some x) :
    (l1 ++ l2).getLast? = some x := by
  induction l1 with
  | nil => simpa using h
  | cons a t ih =>
    rw [List.cons_append]
    exact getLast?_cons_some a x _ ih

theorem ready_true_of_not_false (gw : Gateway) (h : ¬ (gw.ready = false)) : gw.ready = true := by
  cases hb : gw.ready
  · exact absurd hb h
  · rfl

theorem processDests_events (gw : Gateway) (msg : String) (dests : List String) :
    ∀ ev ∈ (processDests gw msg dests).1, ∃ num ∈ dests, ev = Event.send num msg := by
  induction dests with
  | nil =>
    intro ev h
    cases h
  | cons num rest ih =>
    intro ev h
    rw [processDests] at h
    by_cases hr : gw.ready = false
    · rw [if_pos hr] at h
      cases h
    · rw [if_neg hr] at h
      by_cases hs : gw.sendOk num msg = true
      · rw [if_pos hs] at h
        rcases List.mem_cons.mp h with rfl | h2
        · exact ⟨num, List.mem_cons_self num rest, rfl⟩
        · rcases ih ev h2 with ⟨n, hn, he⟩
          exact ⟨n, List.mem_cons_of_mem num hn, he⟩
      · rw [if_neg hs] at h
        rcases List.mem_cons.mp h with rfl | h2
        · exact ⟨num, List.mem_cons_self num rest, rfl⟩
        · cases h2

theorem processDests_ok (gw : Gateway) (msg : String) (dests : List String)
    (h : (processDests gw msg dests).2 = none) :
    (∀ num ∈ dests, gw.sendOk num msg = true) ∧ (dests ≠ [] → gw.ready = true) := by
  induction dests with
  | nil =>
    exact ⟨fun n hn => absurd hn (List.not_mem_nil n), fun hne => absurd rfl hne⟩
  | cons num rest ih =>
    rw [processDests] at h
    by_cases hr : gw.ready = false
    · rw [if_pos hr] at h
      cases h
    · by_cases hs : gw.sendOk num msg = true
      · rw [if_neg hr, if_pos hs] at h
        have h2 := ih h
        refine ⟨?_, fun _ => ready_true_of_not_false gw hr⟩
        intro n hn
        rcases List.mem_cons.mp hn with rfl | hn2
        · exact hs
        · exact h2.1 n hn2
      · rw [if_neg hr, if_neg hs] at h
        cases h

theorem processDests_fail (gw : Gateway) (msg : String) (num : String)
    (hfail : gw.sendOk num msg = false) :
    ∀ dests, Event.send num msg ∈ (processDests gw msg dests).1 →
      (processDests gw msg dests).2 = some (.sendFail num msg) ∧
      (processDests gw msg dests).1.getLast? = some (Event.send num msg) := by
  intro dests
  induction dests with
  | nil =>
    intro h
    cases h
  | cons n rest ih =>
    intro h
    rw [processDests] at h ⊢
    by_cases hr : gw.ready = false
    · rw [if_pos hr] at h
      cases h
    · rw [if_neg hr] at h ⊢
      by_cases hs : gw.sendOk n msg = true
      · rw [if_pos hs] at h ⊢
        rcases List.mem_cons.mp h with heq | h2
        · injection heq with h1 _
          rw [h1] at hfail
          rw [hfail] at hs
          cases hs
        · obtain ⟨ih1, ih2⟩ := ih h2
          exact ⟨ih1, getLast?_cons_some _ _ _ ih2⟩
      · rw [if_neg hs] at h ⊢
        rcases List.mem_cons.mp h with heq | h2
        · injection heq with h1 _
          rw [h1]
          exact ⟨rfl, rfl⟩
        · cases h2

theorem processRows_skip (gw : Gateway) (dests : List String) (mode : String)
    (today : CalendarDate) (iN iC iF iE idx : Nat) (row : List String)
    (rest : List (List String)) (h : rowDue mode today iF iE row = false) :
    processRows gw dests mode today iN iC iF iE (row :: rest) idx =
      processRows gw dests mode today iN iC iF iE rest (idx + 1) := by
  cases hp : parseDDMMYY (getCell row iF) with
  | none => simp only [processRows, hp]
  | some fecha =>
    simp only [rowDue, hp] at h
    by_cases hs : jsLower (jsTrim (getCell row iE)) = "sí"
    · simp only [processRows, hp, if_pos hs]
    · rw [if_neg hs] at h
      simp only [processRows, hp, if_neg hs, h, Bool.false_eq_true, if_false]

theorem processRows_notReady (gw : Gateway) (dests : List String) (mode : String)
    (today : CalendarDate) (iN iC iF iE : Nat)
    (hready : gw.ready = false) (hd : dests ≠ []) :
    ∀ (rows : List (List String)) (idx : Nat),
      (∃ row ∈ rows, rowDue mode today iF iE row = true) →
      processRows gw dests mode today iN iC iF iE rows idx = ([], .error .notReady) := by
  intro rows
  induction rows with
  | nil =>
    intro idx hdue
    rcases hdue with ⟨r, hr, _⟩
    cases hr
  | cons row rest ih =>
    intro idx hdue
    by_cases h : rowDue mode today iF iE row = true
    · cases hp : parseDDMMYY (getCell row iF) with
      | none =>
        simp only [rowDue, hp] at h
        exact absurd h (by decide)
      | some fecha =>
        simp only [rowDue, hp] at h
        by_cases hs : jsLower (jsTrim (getCell row iE)) = "sí"
        · rw [if_pos hs] at h
          exact absurd h (by decide)
        · rw [if_neg hs] at h
          cases dests with
          | nil => exact absurd rfl hd
          | cons num ds =>
            simp only [processRows, hp, if_neg hs, if_pos h, processDests, if_pos hready]
    · have hf : rowDue mode today iF iE row = false := by
        cases hb : rowDue mode today iF iE row
        · rfl
        · exact absurd hb h
      rw [processRows_skip gw dests mode today iN iC iF iE idx row rest hf]
      apply ih
      rcases hdue with ⟨r, hr, hdr⟩
      rcases List.mem_cons.mp hr with rfl | hr2
      · exact absurd hdr h
      · exact ⟨r, hr2, hdr⟩

theorem processRows_due_sendErr (gw : Gateway) (dests : List String) (mode : String)
    (today : CalendarDate) (iN iC iF iE idx : Nat) (row : List String)
    (rest : List (List String)) (fecha : CalendarDate) (e : Err)
    (hp : parseDDMMYY (getCell row iF) = some fecha)
    (hs : ¬ jsLower (jsTrim (getCell row iE)) = "sí")
    (hc : isDueCond mode today fecha = true)
    (hse : (processDests gw
        (renderMsg (jsTrim (getCell row iN)) (jsTrim (getCell row iC)) fecha) dests).2 =
      some e) :
    processRows gw dests mode today iN iC iF iE (row :: rest) idx =
      ((processDests gw
          (renderMsg (jsTrim (getCell row iN)) (jsTrim (getCell row iC)) fecha) dests).1,
        .error e) := by
  simp only [processRows, hp, if_neg hs, if_pos hc, hse]

theorem processRows_due_ok (gw : Gateway) (dests : List String) (mode : String)
    (today : CalendarDate) (iN iC iF iE idx : Nat) (row : List String)
    (rest : List (List String)) (fecha : CalendarDate)
    (hp : parseDDMMYY (getCell row iF) = some fecha)
    (hs : ¬ jsLower (jsTrim (getCell row iE)) = "sí")
    (hc : isDueCond mode today fecha = true)
    (hse : (processDests gw
        (renderMsg (jsTrim (getCell row iN)) (jsTrim (getCell row iC)) fecha) dests).2 =
      none)
    (hw : gw.writeOk (idx + 2) (iE + 1) = true) :
    processRows gw dests mode today iN iC iF iE (row :: rest) idx =
      ((processDests gw
          (renderMsg (jsTrim (getCell row iN)) (jsTrim (getCell row iC)) fecha) dests).1 ++
         Event.write (idx + 2) (iE + 1) "sí" ::
           (processRows gw dests mode today iN iC iF iE rest (idx + 1)).1,
        match (processRows gw dests mode today iN iC iF iE rest (idx + 1)).2 with
        | .ok l => .ok ((idx + 2, jsTrim (getCell row iN)) :: l)
        | .error e2 => .error e2) := by
  simp only [processRows, hp, if_neg hs, if_pos hc, hse, if_pos hw]

theorem processRows_due_wfail (gw : Gateway) (dests : List String) (mode : String)
    (today : CalendarDate) (iN iC iF iE idx : Nat) (row : List String)
    (rest : List (List String)) (fecha : CalendarDate)
    (hp : parseDDMMYY (getCell row iF) = some fecha)
    (hs : ¬ jsLower (jsTrim (getCell row iE)) = "sí")
    (hc : isDueCond mode today fecha = true)
    (hse : (processDests gw
        (renderMsg (jsTrim (getCell row iN)) (jsTrim (getCell row iC)) fecha) dests).2 =
      none)
    (hw : gw.writeOk (idx + 2) (iE + 1) = false) :
    processRows gw dests mode today iN iC iF iE (row :: rest) idx =
      ((processDests gw
          (renderMsg (jsTrim (getCell row iN)) (jsTrim (getCell row iC)) fecha) dests).1 ++
         [Event.write (idx + 2) (iE + 1) "sí"],
        .error (.writeFail (idx + 2) (iE + 1))) := by
  simp only [processRows, hp, if_neg hs, if_pos hc, hse, hw, Bool.false_eq_true, if_false]

/-- C8: when the channel has no authenticated session, destinations are
configured and some record is due, the whole reconciliation pass aborts
with the channel-not-ready error and performs no gateway call at all — in
particular no row is marked sent. -/
theorem c8_not_ready_aborts (gw : Gateway) (dests : List String) (mode : String)
    (today : CalendarDate) (headers : List String) (rows : List (List String))
    (iN iC iF iE : Nat)
    (hready : gw.ready = false)
    (hres : resolveHeaders headers = some (iN, iC, iF, iE))
    (hd : dests ≠ [])
    (hdue : ∃ row ∈ rows, rowDue mode today iF iE row = true) :
    sendPending gw dests mode today headers rows = ([], .error .notReady) := by
  rw [sendPending, if_neg hd, hres]
  exact processRows_notReady gw dests mode today iN iC iF iE hready hd rows 0 hdue

/-- C8 witness: the ready-and-due scenario with a disconnected channel. -/
theorem c8_not_ready_aborts_witness :
    gwNotReady.ready = false ∧
    resolveHeaders hdrsA = some (0, 1, 2, 3) ∧
    (["521"] : List String) ≠ [] ∧
    (∃ row ∈ [rowAna], rowDue "today" day0601 2 3 row = true) ∧
    sendPending gwNotReady ["521"] "today" day0601 hdrsA [rowAna] =
      ([], .error .notReady) :=
  ⟨rfl, by decide, by decide, by decide,
    c8_not_ready_aborts gwNotReady ["521"] "today" day0601 hdrsA [rowAna] 0 1 2 3 rfl
      (by decide) (by decide) (by decide)⟩

theorem processRows_write_inv (gw : Gateway) (dests : List String) (mode : String)
    (today : CalendarDate) (iN iC iF iE : Nat) :
    ∀ (rows : List (List String)) (idx r c : Nat) (v : String),
      Event.write r c v ∈ (processRows gw dests mode today iN iC iF iE rows idx).1 →
      c = iE + 1 ∧ v = "sí" ∧
      ∃ j row, rows.get? j = some row ∧ r = idx + j + 2 ∧
        (∀ num ∈ dests, gw.sendOk num (rowMsg iN iC iF row) = true) ∧
        (dests ≠ [] → gw.ready = true) := by
  intro rows
  induction rows with
  | nil =>
    intro idx r c v h
    cases h
  | cons row rest ih =>
    intro idx r c v h
    by_cases hdue : rowDue mode today iF iE row = true
    · cases hp : parseDDMMYY (getCell row iF) with
      | none =>
        simp only [rowDue, hp] at hdue
        exact absurd hdue (by decide)
      | some fecha =>
        simp only [rowDue, hp] at hdue
        by_cases hs : jsLower (jsTrim (getCell row iE)) = "sí"
        · rw [if_pos hs] at hdue
          exact absurd hdue (by decide)
        · rw [if_neg hs] at hdue
          cases hse : (processDests gw
              (renderMsg (jsTrim (getCell row iN)) (jsTrim (getCell row iC)) fecha)
              dests).2 with
          | some e =>
            rw [processRows_due_sendErr gw dests mode today iN iC iF iE idx row rest fecha e
              hp hs hdue hse] at h
            rcases processDests_events gw _ dests _ h with ⟨n, _, he⟩
            cases he
          | none =>
            have hok := processDests_ok gw
              (renderMsg (jsTrim (getCell row iN)) (jsTrim (getCell row iC)) fecha) dests hse
            by_cases hw : gw.writeOk (idx + 2) (iE + 1) = true
            · rw [processRows_due_ok gw dests mode today iN iC iF iE idx row rest fecha
                hp hs hdue hse hw] at h
              rcases List.mem_append.mp h with h1 | h2
              · rcases processDests_events gw _ dests _ h1 with ⟨n, _, he⟩
                cases he
              · rcases List.mem_cons.mp h2 with heq | h3
                · injection heq with e1 e2 e3
                  refine ⟨e2, e3, 0, row, rfl, by omega, ?_, hok.2⟩
                  intro num hn
                  simp only [rowMsg, hp]
                  exact hok.1 num hn
                · obtain ⟨hc2, hv, j, row2, hg, hr, hsends, hready2⟩ := ih (idx + 1) r c v h3
                  refine ⟨hc2, hv, j + 1, row2, ?_, by omega, hsends, hready2⟩
                  rw [List.get?_cons_succ]
                  exact hg
            · have hwf : gw.writeOk (idx + 2) (iE + 1) = false := by
                cases hb : gw.writeOk (idx + 2) (iE + 1)
                · rfl
                · exact absurd hb hw
              rw [processRows_due_wfail gw dests mode today iN iC iF iE idx row rest fecha
                hp hs hdue hse hwf] at h
              rcases List.mem_append.mp h with h1 | h2
              · rcases processDests_events gw _ dests _ h1 with ⟨n, _, he⟩
                cases he
              · rcases List.mem_cons.mp h2 with heq | h3
                · injection heq with e1 e2 e3
                  refine ⟨e2, e3, 0, row, rfl, by omega, ?_, hok.2⟩
                  intro num hn
                  simp only [rowMsg, hp]
                  exact hok.1 num hn
                · cases h3
    · have hf : rowDue mode today iF iE row = false := by
        cases hb : rowDue mode today iF iE row
        · rfl
        · exact absurd hb hdue
      rw [processRows_skip gw dests mode today iN iC iF iE idx row rest hf] at h
      obtain ⟨hc2, hv, j, row2, hg, hr, hsends, hready2⟩ := ih (idx + 1) r c v h
      refine ⟨hc2, hv, j + 1, row2, ?_, by omega, hsends, hready2⟩
      rw [List.get?_cons_succ]
      exact hg

/-- C1: a sent-marker write for a row appears in the gateway trace of the
pass only when the channel was ready and the send of the rendered message
of that record succeeded for every configured destination; hence on any
send failure the row of the record is never marked sent in that pass.  The second
conjunct is scenario B: one due record, one destination whose send fails —
the trace holds only the failed send attempt, no write, and the pass
reports that send failure. -/
theorem c1_marking_requires_all_sends :
    (∀ (gw : Gateway) (dests : List String) (mode : String) (today : CalendarDate)
        (headers : List String) (rows : List (List String)) (iN iC iF iE r c : Nat)
        (v : String),
        resolveHeaders headers = some (iN, iC, iF, iE) →
        Event.write r c v ∈ (sendPending gw dests mode today headers rows).1 →
        gw.ready = true ∧ c = iE + 1 ∧ v = "sí" ∧
        ∃ j row, rows.get? j = some row ∧ r = j + 2 ∧
          ∀ num ∈ dests, gw.sendOk num (rowMsg iN iC iF row) = true) ∧
    sendPending gwSendFails ["521"] "today" day0601 hdrsA [rowAna] =
      ([Event.send "521" msgAna], .error (.sendFail "521" msgAna)) := by
  constructor
  · intro gw dests mode today headers rows iN iC iF iE r c v hres hmem
    rw [sendPending] at hmem
    by_cases hd : dests = []
    · rw [if_pos hd] at hmem
      cases hmem
    · rw [if_neg hd, hres] at hmem
      obtain ⟨hc2, hv, j, row, hg, hr, hsends, hready⟩ :=
        processRows_write_inv gw dests mode today iN iC iF iE rows 0 r c v hmem
      exact ⟨hready hd, hc2, hv, j, row, hg, by omega, hsends⟩
  · decide

/-- C1 witness: in the all-success scenario A the write of the sent marker
does occur, and the theorem recovers that the channel was ready and every
destination send of the message of that record succeeded. -/
theorem c1_marking_requires_all_sends_witness :
    resolveHeaders hdrsA = some (0, 1, 2, 3) ∧
    Event.write 2 4 "sí" ∈ (sendPending gwOk ["521"] "today" day0601 hdrsA [rowAna]).1 ∧
    (gwOk.ready = true ∧ 4 = 3 + 1 ∧ ("sí" : String) = "sí" ∧
      ∃ j row, [rowAna].get? j = some row ∧ 2 = j + 2 ∧
        ∀ num ∈ ["521"], gwOk.sendOk num (rowMsg 0 1 2 row) = true) :=
  ⟨by decide, by decide,
    c1_marking_requires_all_sends.1 gwOk ["521"] "today" day0601 hdrsA [rowAna] 0 1 2 3 2 4
      "sí" (by decide) (by decide)⟩

theorem processRows_sendfail_inv (gw : Gateway) (dests : List String) (mode : String)
    (today : CalendarDate) (iN iC iF iE : Nat) (num : String) (msg : String)
    (hfail : gw.sendOk num msg = false) :
    ∀ (rows : List (List String)) (idx : Nat),
      Event.send num msg ∈ (processRows gw dests mode today iN iC iF iE rows idx).1 →
      (processRows gw dests mode today iN iC iF iE rows idx).2 =
          .error (.sendFail num msg) ∧
      (processRows gw dests mode today iN iC iF iE rows idx).1.getLast? =
        some (Event.send num msg) := by
  intro rows
  induction rows with
  | nil =>
    intro idx h
    cases h
  | cons row rest ih =>
    intro idx h
    by_cases hdue : rowDue mode today iF iE row = true
    · cases hp : parseDDMMYY (getCell row iF) with
      | none =>
        simp only [rowDue, hp] at hdue
        exact absurd hdue (by decide)
      | some fecha =>
        simp only [rowDue, hp] at hdue
        by_cases hs : jsLower (jsTrim (getCell row iE)) = "sí"
        · rw [if_pos hs] at hdue
          exact absurd hdue (by decide)
        · rw [if_neg hs] at hdue
          cases hse : (processDests gw
              (renderMsg (jsTrim (getCell row iN)) (jsTrim (getCell row iC)) fecha)
              dests).2 with
          | some e =>
            rw [processRows_due_sendErr gw dests mode today iN iC iF iE idx row rest fecha e
              hp hs hdue hse] at h ⊢
            rcases processDests_events gw _ dests _ h with ⟨n, hn, he⟩
            injection he with e1 e2
            subst e2
            obtain ⟨f1, f2⟩ := processDests_fail gw _ num hfail dests h
            rw [hse] at f1
            injection f1 with f1e
            rw [f1e]
            exact ⟨rfl, f2⟩
          | none =>
            have hok := processDests_ok gw
              (renderMsg (jsTrim (getCell row iN)) (jsTrim (getCell row iC)) fecha) dests hse
            by_cases hw : gw.writeOk (idx + 2) (iE + 1) = true
            · rw [processRows_due_ok gw dests mode today iN iC iF iE idx row rest fecha
                hp hs hdue hse hw] at h ⊢
              rcases List.mem_append.mp h with h1 | h2
              · rcases processDests_events gw _ dests _ h1 with ⟨n, hn, he⟩
                injection he with e1 e2
                subst e1
                subst e2
                rw [hok.1 num hn] at hfail
                cases hfail
              · rcases List.mem_cons.mp h2 with heq | h3
                · cases heq
                · obtain ⟨g1, g2⟩ := ih (idx + 1) h3
                  constructor
                  · simp only [g1]
                  · exact getLast?_append_some _ _ _ (getLast?_cons_some _ _ _ g2)
            · have hwf : gw.writeOk (idx + 2) (iE + 1) = false := by
                cases hb : gw.writeOk (idx + 2) (iE + 1)
                · rfl
                · exact absurd hb hw
              rw [processRows_due_wfail gw dests mode today iN iC iF iE idx row rest fecha
                hp hs hdue hse hwf] at h
              rcases List.mem_append.mp h with h1 | h2
              · rcases processDests_events gw _ dests _ h1 with ⟨n, hn, he⟩
                injection he with e1 e2
                subst e1
                subst e2
                rw [hok.1 num hn] at hfail
                cases hfail
              · rcases List.mem_cons.mp h2 with heq | h3
                · cases heq
                · cases h3
    · have hf : rowDue mode today iF iE row = false := by
        cases hb : rowDue mode today iF iE row
        · rfl
        · exact absurd hb hdue
      rw [processRows_skip gw dests mode today iN iC iF iE idx row rest hf] at h ⊢
      exact ih (idx + 1) h

/-- C2 counterexample: the claim says a send failure for one destination
does not stop sends to the remaining destinations and is recorded in a
per-record error list.  With two destinations where the first send fails,
the trace of the pass carries only the failed first attempt — the second
destination is never tried — and the result is a bare abort error, not an
accounting with a per-record error list. -/
theorem c2_counterexample :
    (sendPending gwFailFirst ["111", "222"] "today" day0601 hdrsA [rowAna]).1 =
      [Event.send "111" msgAna] ∧
    Event.send "222" msgAna ∉
      (sendPending gwFailFirst ["111", "222"] "today" day0601 hdrsA [rowAna]).1 ∧
    (sendPending gwFailFirst ["111", "222"] "today" day0601 hdrsA [rowAna]).2 =
      .error (.sendFail "111" msgAna) := by
  decide

/-- C2 (amended): a send failure for one destination of a due record stops
the entire pass — the failed attempt is the last gateway event, so no
further destination, no marker write and no later record is processed —
and the result of the pass is that single send-failure error rather than a
per-record error list. -/
theorem c2_send_failure_aborts_pass (gw : Gateway) (dests : List String) (mode : String)
    (today : CalendarDate) (headers : List String) (rows : List (List String))
    (num : String) (msg : String)
    (hfail : gw.sendOk num msg = false)
    (hmem : Event.send num msg ∈ (sendPending gw dests mode today headers rows).1) :
    (sendPending gw dests mode today headers rows).2 = .error (.sendFail num msg) ∧
    (sendPending gw dests mode today headers rows).1.getLast? =
      some (Event.send num msg) := by
  rw [sendPending] at hmem ⊢
  by_cases hd : dests = []
  · rw [if_pos hd] at hmem
    cases hmem
  · rw [if_neg hd] at hmem ⊢
    cases hres : resolveHeaders headers with
    | none =>
      rw [hres] at hmem
      cases hmem
    | some cols =>
      rw [hres] at hmem
      obtain ⟨iN, iC, iF, iE⟩ := cols
      exact processRows_sendfail_inv gw dests mode today iN iC iF iE num msg hfail rows 0 hmem

/-- C2 witness: the amended statement at the two-destination scenario whose
first send fails. -/
theorem c2_send_failure_aborts_pass_witness :
    gwFailFirst.sendOk "111" msgAna = false ∧
    Event.send "111" msgAna ∈
      (sendPending gwFailFirst ["111", "222"] "today" day0601 hdrsA [rowAna]).1 ∧
    ((sendPending gwFailFirst ["111", "222"] "today" day0601 hdrsA [rowAna]).2 =
        .error (.sendFail "111" msgAna) ∧
      (sendPending gwFailFirst ["111", "222"] "today" day0601 hdrsA [rowAna]).1.getLast? =
        some (Event.send "111" msgAna)) :=
  ⟨by decide, by decide,
    c2_send_failure_aborts_pass gwFailFirst ["111", "222"] "today" day0601 hdrsA [rowAna]
      "111" msgAna (by decide) (by decide)⟩

